import Mathlib

/-!
Verification of the sliding-window attention core

Shallow embedding of `src/utils/slidingWindow.ts` (per-axis causal flags)
and of the earlier single-boolean-causal variant of the same file.

JavaScript number arithmetic on the integer inputs used here is exact, so
numbers are modelled as `Int`; the JS `%` operator (remainder with the sign
of the dividend) is `Int.tmod` and `Math.floor(a / b)` is `Int.fdiv`.
Arrays are modelled as `List`, the in-place updates of the mask matrix as
`List.set` threaded through `List.foldl`.
-/

/-- Embedding of `VolumeShape` from `slidingWindow.ts`: `{ frames, height, width }`. -/
structure VolumeShape where
  frames : Int
  height : Int
  width : Int
deriving DecidableEq, Repr

/-- Embedding of `Position3D` from `slidingWindow.ts`: `{ frame, height, width }`.
Also used for the per-axis window size (`windowSize` parameter). -/
structure Position3D where
  frame : Int
  height : Int
  width : Int
deriving DecidableEq, Repr

/-- Embedding of `Causal3D` from `slidingWindow.ts`: one causal flag per axis. -/
structure Causal3D where
  frame : Bool
  height : Bool
  width : Bool
deriving DecidableEq, Repr

/-- Embedding of `position1DTo3D` from `slidingWindow.ts`:
`widthIdx = position1D % width`, `heightIdx = Math.floor(position1D / width) % height`,
`frameIdx = Math.floor(position1D / (width * height))`. -/
def position1DTo3D (position1D : Int) (volumeShape : VolumeShape) : Position3D :=
  let widthIdx := position1D.tmod volumeShape.width
  let heightIdx := (position1D.fdiv volumeShape.width).tmod volumeShape.height
  let frameIdx := position1D.fdiv (volumeShape.width * volumeShape.height)
  { frame := frameIdx, height := heightIdx, width := widthIdx }

/-- Embedding of `position3DTo1D` from `slidingWindow.ts`:
`position3D.frame * (height * width) + position3D.height * width + position3D.width`. -/
def position3DTo1D (position3D : Position3D) (volumeShape : VolumeShape) : Int :=
  position3D.frame * (volumeShape.height * volumeShape.width) +
    position3D.height * volumeShape.width + position3D.width

/-- The ascending integer range `[a, b)`, the values taken by a JS loop
`for (let i = a; i < b; i++)`. -/
def intRange (a b : Int) : List Int :=
  (List.range (b - a).toNat).map (fun (i : Nat) => a + (i : Int))

/-- Embedding of `getWindows3D` from `slidingWindow.ts` (per-axis causal variant):
per-axis start `max(pos - windowSize, 0)`; per-axis end `pos + 1` when that
axis is causal, else `min(pos + 1 + windowSize, extent)`; then the three
nested loops over frame, height, width pushing `{frame: f, height: h, width: w}`. -/
def getWindows3D (position3D : Position3D) (volumeShape : VolumeShape)
    (windowSize : Position3D) (causal : Causal3D) : List Position3D :=
  let frameStart := max (position3D.frame - windowSize.frame) 0
  let heightStart := max (position3D.height - windowSize.height) 0
  let widthStart := max (position3D.width - windowSize.width) 0
  let frameEnd := if causal.frame then position3D.frame + 1
    else min (position3D.frame + 1 + windowSize.frame) volumeShape.frames
  let heightEnd := if causal.height then position3D.height + 1
    else min (position3D.height + 1 + windowSize.height) volumeShape.height
  let widthEnd := if causal.width then position3D.width + 1
    else min (position3D.width + 1 + windowSize.width) volumeShape.width
  (intRange frameStart frameEnd).flatMap (fun f =>
    (intRange heightStart heightEnd).flatMap (fun h =>
      (intRange widthStart widthEnd).map (fun w =>
        ({ frame := f, height := h, width := w } : Position3D))))

/-- The token count `totalTokens = volumeShape.frames * volumeShape.height * volumeShape.width`,
as the length of the mask matrix. -/
def totalTokens (volumeShape : VolumeShape) : Nat :=
  (volumeShape.frames * volumeShape.height * volumeShape.width).toNat

/-- Embedding of `getSlidingWindowMask3D` from `slidingWindow.ts`: a `totalTokens × totalTokens`
matrix initialized to `false`; for each flat query index the window positions are
converted back to flat indices and the corresponding entries of that row are set
to `true` (`mask[position1D][kvPosition1D] = true`). -/
def getSlidingWindowMask3D (volumeShape : VolumeShape) (windowSize : Position3D)
    (causal : Causal3D) : List (List Bool) :=
  let T := totalTokens volumeShape
  let init := List.replicate T (List.replicate T false)
  (List.range T).foldl (fun mask (position1D : Nat) =>
    let position3D := position1DTo3D position1D volumeShape
    let windowPositions3D := getWindows3D position3D volumeShape windowSize causal
    windowPositions3D.foldl (fun m kvPosition3D =>
      let kvPosition1D := position3DTo1D kvPosition3D volumeShape
      m.set position1D ((m.getD position1D []).set kvPosition1D.toNat true)) mask) init

namespace Single

/-- Embedding of `getWindows3D` of the earlier single-boolean variant of `slidingWindow.ts`:
same starts; when `causal` all three ends are `pos + 1`, otherwise all three are
`min(pos + 1 + windowSize, extent)`; same nested loops. -/
def getWindows3D (position3D : Position3D) (volumeShape : VolumeShape)
    (windowSize : Position3D) (causal : Bool) : List Position3D :=
  let frameStart := max (position3D.frame - windowSize.frame) 0
  let heightStart := max (position3D.height - windowSize.height) 0
  let widthStart := max (position3D.width - windowSize.width) 0
  let ends : Int × Int × Int :=
    if causal then
      (position3D.frame + 1, position3D.height + 1, position3D.width + 1)
    else
      (min (position3D.frame + 1 + windowSize.frame) volumeShape.frames,
       min (position3D.height + 1 + windowSize.height) volumeShape.height,
       min (position3D.width + 1 + windowSize.width) volumeShape.width)
  (intRange frameStart ends.1).flatMap (fun f =>
    (intRange heightStart ends.2.1).flatMap (fun h =>
      (intRange widthStart ends.2.2).map (fun w =>
        ({ frame := f, height := h, width := w } : Position3D))))

/-- Embedding of `getSlidingWindowMask3D` of the earlier single-boolean variant: identical to
the per-axis one except that it passes the single causal flag to its
`getWindows3D`. -/
def getSlidingWindowMask3D (volumeShape : VolumeShape) (windowSize : Position3D)
    (causal : Bool) : List (List Bool) :=
  let T := totalTokens volumeShape
  let init := List.replicate T (List.replicate T false)
  (List.range T).foldl (fun mask (position1D : Nat) =>
    let position3D := position1DTo3D position1D volumeShape
    let windowPositions3D := Single.getWindows3D position3D volumeShape windowSize causal
    windowPositions3D.foldl (fun m kvPosition3D =>
      let kvPosition1D := position3DTo1D kvPosition3D volumeShape
      m.set position1D ((m.getD position1D []).set kvPosition1D.toNat true)) mask) init

end Single

/-- A shape is valid when every axis extent is at least 1 (spec §3). -/
def VolumeShape.Valid (s : VolumeShape) : Prop :=
  1 ≤ s.frames ∧ 1 ≤ s.height ∧ 1 ≤ s.width

instance (s : VolumeShape) : Decidable s.Valid :=
  inferInstanceAs (Decidable (1 ≤ s.frames ∧ 1 ≤ s.height ∧ 1 ≤ s.width))

/-- A coordinate is valid for a shape when each component lies in `[0, extent)`
(spec §3). -/
def Position3D.ValidFor (c : Position3D) (s : VolumeShape) : Prop :=
  0 ≤ c.frame ∧ c.frame < s.frames ∧ 0 ≤ c.height ∧ c.height < s.height ∧
    0 ≤ c.width ∧ c.width < s.width

instance (c : Position3D) (s : VolumeShape) : Decidable (c.ValidFor s) :=
  inferInstanceAs (Decidable (0 ≤ c.frame ∧ c.frame < s.frames ∧ 0 ≤ c.height ∧
    c.height < s.height ∧ 0 ≤ c.width ∧ c.width < s.width))

/-- A window radius is valid when each component is non-negative (spec §3). -/
def Position3D.Nonneg (w : Position3D) : Prop :=
  0 ≤ w.frame ∧ 0 ≤ w.height ∧ 0 ≤ w.width

instance (w : Position3D) : Decidable w.Nonneg :=
  inferInstanceAs (Decidable (0 ≤ w.frame ∧ 0 ≤ w.height ∧ 0 ≤ w.width))

/-- The inner loop of `getSlidingWindowMask3D` acting on a single row of the
mask: set the flat index of each window position to `true`. -/
def markRow (s : VolumeShape) (row : List Bool) (wins : List Position3D) : List Bool :=
  wins.foldl (fun r kv => r.set (position3DTo1D kv s).toNat true) row

/-! ### Range lemmas -/

theorem mem_intRange {a b x : Int} : x ∈ intRange a b ↔ a ≤ x ∧ x < b := by
  rw [intRange, List.mem_map]
  constructor
  · rintro ⟨i, hi, rfl⟩
    rw [List.mem_range] at hi
    omega
  · intro h
    refine ⟨(x - a).toNat, ?_, by omega⟩
    rw [List.mem_range]
    omega

theorem intRange_nodup (a b : Int) : (intRange a b).Nodup := by
  rw [intRange]
  refine List.Nodup.map ?_ (List.nodup_range _)
  intro i j hij
  simp only [add_right_inj, Nat.cast_inj] at hij
  exact hij

theorem intRange_eq_nil {a b : Int} (h : b ≤ a) : intRange a b = [] := by
  unfold intRange
  rw [show (b - a).toNat = 0 by omega]
  rfl

/-! ### Window enumeration lemmas -/

theorem mem_getWindows3D {c : Position3D} {s : VolumeShape} {ws : Position3D}
    {causal : Causal3D} {x : Position3D} :
    x ∈ getWindows3D c s ws causal ↔
      (max (c.frame - ws.frame) 0 ≤ x.frame ∧
        x.frame < (if causal.frame then c.frame + 1
          else min (c.frame + 1 + ws.frame) s.frames)) ∧
      (max (c.height - ws.height) 0 ≤ x.height ∧
        x.height < (if causal.height then c.height + 1
          else min (c.height + 1 + ws.height) s.height)) ∧
      (max (c.width - ws.width) 0 ≤ x.width ∧
        x.width < (if causal.width then c.width + 1
          else min (c.width + 1 + ws.width) s.width)) := by
  simp only [getWindows3D, List.mem_flatMap, List.mem_map, mem_intRange]
  constructor
  · rintro ⟨f, hf, h, hh, w, hw, rfl⟩
    exact ⟨hf, hh, hw⟩
  · rintro ⟨hf, hh, hw⟩
    exact ⟨x.frame, hf, x.height, hh, x.width, hw, rfl⟩

theorem getWindows3D_nodup (c : Position3D) (s : VolumeShape) (ws : Position3D)
    (causal : Causal3D) : (getWindows3D c s ws causal).Nodup := by
  unfold getWindows3D
  rw [List.nodup_flatMap]
  constructor
  · intro f _
    rw [List.nodup_flatMap]
    constructor
    · intro h _
      refine List.Nodup.map ?_ (intRange_nodup _ _)
      intro w1 w2 h12
      simpa using h12
    · refine List.Pairwise.imp ?_ (intRange_nodup _ _)
      intro h1 h2 hne x hx1 hx2
      simp only [Function.onFun, List.mem_map] at hx1 hx2
      obtain ⟨w1, _, rfl⟩ := hx1
      obtain ⟨w2, _, h12⟩ := hx2
      exact hne (congrArg Position3D.height h12).symm
  · refine List.Pairwise.imp ?_ (intRange_nodup _ _)
    intro f1 f2 hne x hx1 hx2
    simp only [Function.onFun, List.mem_flatMap, List.mem_map] at hx1 hx2
    obtain ⟨h1, _, w1, _, rfl⟩ := hx1
    obtain ⟨h2, _, w2, _, h12⟩ := hx2
    exact hne (congrArg Position3D.frame h12).symm

theorem getWindows3D_valid {c : Position3D} {s : VolumeShape} (ws : Position3D)
    (causal : Causal3D) (hc : c.ValidFor s) :
    ∀ x ∈ getWindows3D c s ws causal, x.ValidFor s := by
  intro x hx
  rw [mem_getWindows3D] at hx
  obtain ⟨⟨hf1, hf2⟩, ⟨hh1, hh2⟩, ⟨hw1, hw2⟩⟩ := hx
  obtain ⟨hcf1, hcf2, hch1, hch2, hcw1, hcw2⟩ := hc
  refine ⟨by omega, ?_, by omega, ?_, by omega, ?_⟩
  · cases hb : causal.frame <;> rw [hb] at hf2 <;> simp at hf2 <;> omega
  · cases hb : causal.height <;> rw [hb] at hh2 <;> simp at hh2 <;> omega
  · cases hb : causal.width <;> rw [hb] at hw2 <;> simp at hw2 <;> omega

theorem getWindows3D_self_mem {c : Position3D} {s : VolumeShape} {ws : Position3D}
    (causal : Causal3D) (hc : c.ValidFor s) (hws : ws.Nonneg) :
    c ∈ getWindows3D c s ws causal := by
  rw [mem_getWindows3D]
  obtain ⟨hcf1, hcf2, hch1, hch2, hcw1, hcw2⟩ := hc
  obtain ⟨h1, h2, h3⟩ := hws
  refine ⟨⟨?_, ?_⟩, ⟨?_, ?_⟩, ⟨?_, ?_⟩⟩
  · omega
  · cases causal.frame <;> simp <;> omega
  · omega
  · cases causal.height <;> simp <;> omega
  · omega
  · cases causal.width <;> simp <;> omega

theorem getWindows3D_eq_nil_of_neg {c : Position3D} {s : VolumeShape} {ws : Position3D}
    (causal : Causal3D) (hneg : ws.frame < 0 ∨ ws.height < 0 ∨ ws.width < 0) :
    getWindows3D c s ws causal = [] := by
  rw [List.eq_nil_iff_forall_not_mem]
  intro x hx
  rw [mem_getWindows3D] at hx
  obtain ⟨⟨hf1, hf2⟩, ⟨hh1, hh2⟩, ⟨hw1, hw2⟩⟩ := hx
  rcases hneg with h | h | h
  · cases hb : causal.frame <;> rw [hb] at hf2 <;> simp at hf2 <;> omega
  · cases hb : causal.height <;> rw [hb] at hh2 <;> simp at hh2 <;> omega
  · cases hb : causal.width <;> rw [hb] at hw2 <;> simp at hw2 <;> omega

/-! ### Coordinate arithmetic lemmas -/

theorem int_ediv_ediv (a : Int) {b c : Int} (hb : 0 < b) (hc : 0 < c) :
    a / b / c = a / (b * c) := by
  have h1 : b * (a / b) + a % b = a := Int.ediv_add_emod a b
  have h2 : c * (a / b / c) + (a / b) % c = a / b := Int.ediv_add_emod (a / b) c
  have hr1 : 0 ≤ a % b := Int.emod_nonneg a (by omega)
  have hr2 : a % b < b := Int.emod_lt_of_pos a hb
  have hr3 : 0 ≤ (a / b) % c := Int.emod_nonneg (a / b) (by omega)
  have hr4 : (a / b) % c < c := Int.emod_lt_of_pos (a / b) hc
  have key : a = b * (a / b % c) + a % b + b * c * (a / b / c) := by
    linear_combination -h1 - b * h2
  have hbound : b * (a / b % c) + a % b < b * c := by
    have h5 : b * (a / b % c) ≤ b * (c - 1) :=
      mul_le_mul_of_nonneg_left (by omega) (by omega)
    have h6 : b * (c - 1) = b * c - b := by ring
    omega
  have hbound0 : 0 ≤ b * (a / b % c) + a % b := by
    have h5 : 0 ≤ b * (a / b % c) := mul_nonneg (by omega) hr3
    omega
  conv_rhs => rw [key]
  rw [Int.add_mul_ediv_left _ _ (by positivity : b * c ≠ 0),
    Int.ediv_eq_zero_of_lt hbound0 hbound]
  omega

theorem position1DTo3D_width {s : VolumeShape} (hs : s.Valid) {i : Int} (hi : 0 ≤ i) :
    (position1DTo3D i s).width = i % s.width := by
  obtain ⟨h1, h2, h3⟩ := hs
  simp only [position1DTo3D]
  exact Int.tmod_eq_emod hi (by omega)

theorem position1DTo3D_height {s : VolumeShape} (hs : s.Valid) {i : Int} (hi : 0 ≤ i) :
    (position1DTo3D i s).height = (i / s.width) % s.height := by
  obtain ⟨h1, h2, h3⟩ := hs
  simp only [position1DTo3D]
  rw [Int.fdiv_eq_ediv _ (by omega)]
  exact Int.tmod_eq_emod (Int.ediv_nonneg hi (by omega)) (by omega)

theorem position1DTo3D_frame {s : VolumeShape} (hs : s.Valid) {i : Int} (hi : 0 ≤ i) :
    (position1DTo3D i s).frame = i / (s.width * s.height) := by
  obtain ⟨h1, h2, h3⟩ := hs
  simp only [position1DTo3D]
  exact Int.fdiv_eq_ediv _ (by positivity)

theorem position3DTo1D_position1DTo3D {s : VolumeShape} (hs : s.Valid) {i : Int}
    (hi : 0 ≤ i) : position3DTo1D (position1DTo3D i s) s = i := by
  have hW : 0 < s.width := by obtain ⟨_, _, h⟩ := hs; omega
  have hH : 0 < s.height := by obtain ⟨_, h, _⟩ := hs; omega
  have h1 : s.width * (i / s.width) + i % s.width = i := Int.ediv_add_emod i s.width
  have h2 : s.height * (i / s.width / s.height) + (i / s.width) % s.height = i / s.width :=
    Int.ediv_add_emod (i / s.width) s.height
  have h3 : i / (s.width * s.height) = i / s.width / s.height :=
    (int_ediv_ediv i hW hH).symm
  simp only [position3DTo1D, position1DTo3D_width hs hi, position1DTo3D_height hs hi,
    position1DTo3D_frame hs hi, h3]
  linear_combination s.width * h2 + h1

theorem position3DTo1D_nonneg {s : VolumeShape} {c : Position3D} (hs : s.Valid)
    (hc : c.ValidFor s) : 0 ≤ position3DTo1D c s := by
  obtain ⟨h1, h2, h3⟩ := hs
  obtain ⟨hf1, hf2, hh1, hh2, hw1, hw2⟩ := hc
  have p1 : 0 ≤ c.frame * (s.height * s.width) := mul_nonneg hf1 (by positivity)
  have p2 : 0 ≤ c.height * s.width := mul_nonneg hh1 (by omega)
  simp only [position3DTo1D]
  omega

theorem position3DTo1D_lt {s : VolumeShape} {c : Position3D} (hs : s.Valid)
    (hc : c.ValidFor s) : position3DTo1D c s < s.frames * s.height * s.width := by
  obtain ⟨h1, h2, h3⟩ := hs
  obtain ⟨hf1, hf2, hh1, hh2, hw1, hw2⟩ := hc
  have p1 : c.frame * (s.height * s.width) ≤ (s.frames - 1) * (s.height * s.width) :=
    mul_le_mul_of_nonneg_right (by omega) (by positivity)
  have p2 : c.height * s.width ≤ (s.height - 1) * s.width :=
    mul_le_mul_of_nonneg_right (by omega) (by omega)
  have e1 : (s.frames - 1) * (s.height * s.width) = s.frames * s.height * s.width -
      s.height * s.width := by ring
  have e2 : (s.height - 1) * s.width = s.height * s.width - s.width := by ring
  simp only [position3DTo1D]
  omega

theorem position1DTo3D_position3DTo1D {s : VolumeShape} {c : Position3D} (hs : s.Valid)
    (hc : c.ValidFor s) : position1DTo3D (position3DTo1D c s) s = c := by
  have hW : 0 < s.width := by obtain ⟨_, _, h⟩ := hs; omega
  have hH : 0 < s.height := by obtain ⟨_, h, _⟩ := hs; omega
  have hn : 0 ≤ position3DTo1D c s := position3DTo1D_nonneg hs hc
  obtain ⟨hf1, hf2, hh1, hh2, hw1, hw2⟩ := hc
  have hsplit : position3DTo1D c s = c.width + s.width * (c.frame * s.height + c.height) := by
    simp only [position3DTo1D]
    ring
  have hdvd : (c.width + s.width * (c.frame * s.height + c.height)) / s.width =
      c.frame * s.height + c.height := by
    rw [Int.add_mul_ediv_left _ _ (by omega : s.width ≠ 0),
      Int.ediv_eq_zero_of_lt hw1 hw2]
    omega
  have hwidth : (position1DTo3D (position3DTo1D c s) s).width = c.width := by
    rw [position1DTo3D_width hs hn, hsplit, Int.add_mul_emod_self_left,
      Int.emod_eq_of_lt hw1 hw2]
  have hheight : (position1DTo3D (position3DTo1D c s) s).height = c.height := by
    rw [position1DTo3D_height hs hn, hsplit, hdvd,
      show c.frame * s.height + c.height = c.height + s.height * c.frame by ring,
      Int.add_mul_emod_self_left, Int.emod_eq_of_lt hh1 hh2]
  have hframe : (position1DTo3D (position3DTo1D c s) s).frame = c.frame := by
    rw [position1DTo3D_frame hs hn, ← int_ediv_ediv _ hW hH, hsplit, hdvd,
      show c.frame * s.height + c.height = c.height + s.height * c.frame by ring,
      Int.add_mul_ediv_left _ _ (by omega : s.height ≠ 0),
      Int.ediv_eq_zero_of_lt hh1 hh2]
    omega
  have : position1DTo3D (position3DTo1D c s) s =
      ⟨(position1DTo3D (position3DTo1D c s) s).frame,
       (position1DTo3D (position3DTo1D c s) s).height,
       (position1DTo3D (position3DTo1D c s) s).width⟩ := rfl
  rw [this, hframe, hheight, hwidth]

theorem position1DTo3D_valid {s : VolumeShape} (hs : s.Valid) {i : Int} (hi : 0 ≤ i)
    (hiT : i < s.frames * s.height * s.width) : (position1DTo3D i s).ValidFor s := by
  have hW : 0 < s.width := by obtain ⟨_, _, h⟩ := hs; omega
  have hH : 0 < s.height := by obtain ⟨_, h, _⟩ := hs; omega
  have hF : 0 < s.frames := by obtain ⟨h, _, _⟩ := hs; omega
  refine ⟨?_, ?_, ?_, ?_, ?_, ?_⟩
  · rw [position1DTo3D_frame hs hi]
    exact Int.ediv_nonneg hi (by positivity)
  · rw [position1DTo3D_frame hs hi]
    refine Int.ediv_lt_of_lt_mul (by positivity) ?_
    calc i < s.frames * s.height * s.width := hiT
    _ = s.frames * (s.width * s.height) := by ring
  · rw [position1DTo3D_height hs hi]
    exact Int.emod_nonneg _ (by omega)
  · rw [position1DTo3D_height hs hi]
    exact Int.emod_lt_of_pos _ hH
  · rw [position1DTo3D_width hs hi]
    exact Int.emod_nonneg _ (by omega)
  · rw [position1DTo3D_width hs hi]
    exact Int.emod_lt_of_pos _ hW

/-! ### Mask construction lemmas -/

theorem markRow_nil (s : VolumeShape) (wins : List Position3D) :
    markRow s [] wins = [] := by
  induction wins with
  | nil => rfl
  | cons kv rest ih => simpa [markRow] using ih

theorem markRow_length (s : VolumeShape) (row : List Bool) (wins : List Position3D) :
    (markRow s row wins).length = row.length := by
  induction wins generalizing row with
  | nil => rfl
  | cons kv rest ih =>
      simp only [markRow, List.foldl_cons] at *
      rw [ih]
      exact List.length_set row _ _

theorem getD_set_ne {m : List (List Bool)} {p q : Nat} (hpq : p ≠ q) (x : List Bool) :
    (m.set p x).getD q [] = m.getD q [] := by
  rw [List.getD_eq_getElem?_getD, List.getD_eq_getElem?_getD, List.getElem?_set,
    if_neg hpq]

theorem getD_set_self (m : List (List Bool)) (q : Nat) (x : List Bool) :
    (m.set q x).getD q [] = if q < m.length then x else m.getD q [] := by
  rw [List.getD_eq_getElem?_getD, List.getElem?_set, if_pos rfl]
  split
  · rfl
  · next h =>
      rw [List.getD_eq_getElem?_getD, List.getElem?_eq_none (by omega)]

theorem set_getD_self (m : List (List Bool)) (q : Nat) :
    m.set q (m.getD q []) = m := by
  rcases Nat.lt_or_ge q m.length with h | h
  · refine List.ext_getElem? fun n => ?_
    rw [List.getElem?_set]
    rcases eq_or_ne q n with rfl | hne
    · rw [if_pos rfl, if_pos h, List.getD_eq_getElem?_getD, List.getElem?_eq_getElem h]
      rfl
    · rw [if_neg hne]
  · exact List.set_eq_of_length_le h

theorem markRow_getD (s : VolumeShape) (row : List Bool) (wins : List Position3D)
    (k : Nat) :
    (markRow s row wins).getD k false = true ↔
      row.getD k false = true ∨
        (k < row.length ∧ ∃ kv ∈ wins, (position3DTo1D kv s).toNat = k) := by
  induction wins generalizing row with
  | nil => simp [markRow]
  | cons kv rest ih =>
      have hstep : markRow s row (kv :: rest) =
          markRow s (row.set (position3DTo1D kv s).toNat true) rest := rfl
      rw [hstep, ih]
      have hset : (row.set (position3DTo1D kv s).toNat true).getD k false = true ↔
          row.getD k false = true ∨
            ((position3DTo1D kv s).toNat = k ∧ k < row.length) := by
        rcases eq_or_ne (position3DTo1D kv s).toNat k with heq | hne
        · subst heq
          rcases Nat.lt_or_ge (position3DTo1D kv s).toNat row.length with h | h
          · rw [List.getD_eq_getElem?_getD, List.getElem?_set, if_pos rfl, if_pos h]
            simp [h]
          · rw [List.set_eq_of_length_le h]
            constructor
            · exact fun hx => Or.inl hx
            · rintro (hx | ⟨_, hlt⟩)
              · exact hx
              · omega
        · rw [List.getD_eq_getElem?_getD, List.getElem?_set, if_neg hne,
            ← List.getD_eq_getElem?_getD]
          simp [hne]
      rw [hset, List.length_set]
      simp only [List.mem_cons]
      constructor
      · rintro ((h | h) | ⟨hk, kv', hkv', hval⟩)
        · exact Or.inl h
        · exact Or.inr ⟨h.2, kv, Or.inl rfl, h.1⟩
        · exact Or.inr ⟨hk, kv', Or.inr hkv', hval⟩
      · rintro (h | ⟨hk, kv', (rfl | hkv'), hval⟩)
        · exact Or.inl (Or.inl h)
        · exact Or.inl (Or.inr ⟨hval, hk⟩)
        · exact Or.inr ⟨hk, kv', hkv', hval⟩

theorem foldl_set_markRow (s : VolumeShape) (wins : List Position3D)
    (m : List (List Bool)) (q : Nat) :
    wins.foldl (fun m kv =>
        m.set q ((m.getD q []).set (position3DTo1D kv s).toNat true)) m =
      m.set q (markRow s (m.getD q []) wins) := by
  induction wins generalizing m with
  | nil => rw [List.foldl_nil, markRow, List.foldl_nil, set_getD_self]
  | cons kv rest ih =>
      rw [List.foldl_cons, ih]
      have hrow : ((m.set q ((m.getD q []).set (position3DTo1D kv s).toNat true)).getD
          q []) = (m.getD q []).set (position3DTo1D kv s).toNat true := by
        rw [getD_set_self]
        split
        · rfl
        · next h =>
            have hq : m.getD q [] = [] := by
              rw [List.getD_eq_getElem?_getD, List.getElem?_eq_none (by omega)]
              rfl
            rw [hq]
            rfl
      rw [hrow, List.set_set]
      rfl

theorem foldl_markRow_length (s : VolumeShape) (w : Nat → List Position3D)
    (l : List Nat) (m : List (List Bool)) :
    (l.foldl (fun m p => m.set p (markRow s (m.getD p []) (w p))) m).length =
      m.length := by
  induction l generalizing m with
  | nil => rfl
  | cons p rest ih =>
      rw [List.foldl_cons, ih]
      exact List.length_set m _ _

theorem foldl_markRow_getD (s : VolumeShape) (w : Nat → List Position3D)
    (l : List Nat) (hl : l.Nodup) (m : List (List Bool)) (q : Nat) :
    (l.foldl (fun m p => m.set p (markRow s (m.getD p []) (w p))) m).getD q [] =
      if q ∈ l then markRow s (m.getD q []) (w q) else m.getD q [] := by
  induction l generalizing m with
  | nil => simp
  | cons p rest ih =>
      rw [List.nodup_cons] at hl
      rw [List.foldl_cons, ih hl.2]
      rcases eq_or_ne q p with rfl | hne
      · rw [if_neg hl.1, if_pos (List.mem_cons_self q rest), getD_set_self]
        split
        · rfl
        · next h =>
            have hq : m.getD q [] = [] := by
              rw [List.getD_eq_getElem?_getD, List.getElem?_eq_none (by omega)]
              rfl
            rw [hq, markRow_nil]
      · rw [getD_set_ne (Ne.symm hne) _]
        have hmem : (q ∈ p :: rest) ↔ (q ∈ rest) := by
          simp [List.mem_cons, hne]
        simp only [hmem]

theorem getSlidingWindowMask3D_eq_foldl (s : VolumeShape) (ws : Position3D)
    (causal : Causal3D) :
    getSlidingWindowMask3D s ws causal =
      (List.range (totalTokens s)).foldl
        (fun m p => m.set p (markRow s (m.getD p [])
          (getWindows3D (position1DTo3D (p : Int) s) s ws causal)))
        (List.replicate (totalTokens s) (List.replicate (totalTokens s) false)) := by
  simp only [getSlidingWindowMask3D]
  refine List.foldl_ext _ _ _ fun mask p _ => ?_
  exact foldl_set_markRow s _ mask p

theorem getSlidingWindowMask3D_length (s : VolumeShape) (ws : Position3D)
    (causal : Causal3D) :
    (getSlidingWindowMask3D s ws causal).length = totalTokens s := by
  rw [getSlidingWindowMask3D_eq_foldl, foldl_markRow_length]
  exact List.length_replicate _ _

theorem getSlidingWindowMask3D_getD (s : VolumeShape) (ws : Position3D)
    (causal : Causal3D) (q : Nat) :
    (getSlidingWindowMask3D s ws causal).getD q [] =
      if q < totalTokens s then
        markRow s (List.replicate (totalTokens s) false)
          (getWindows3D (position1DTo3D (q : Int) s) s ws causal)
      else [] := by
  rw [getSlidingWindowMask3D_eq_foldl,
    foldl_markRow_getD s _ _ (List.nodup_range _)]
  have hrep : (List.replicate (totalTokens s) (List.replicate (totalTokens s)
      false)).getD q [] =
      if q < totalTokens s then List.replicate (totalTokens s) false else [] := by
    rw [List.getD_eq_getElem?_getD, List.getElem?_replicate]
    split
    · rfl
    · rfl
  rw [hrep]
  by_cases h : q < totalTokens s
  · simp [h, List.mem_range]
  · simp [h, List.mem_range, markRow_nil]

theorem getD_replicate_false (n k : Nat) :
    (List.replicate n false).getD k false = false := by
  rw [List.getD_eq_getElem?_getD, List.getElem?_replicate]
  split
  · rfl
  · rfl

theorem getSlidingWindowMask3D_row_length (s : VolumeShape) (ws : Position3D)
    (causal : Causal3D) (q : Nat) (hq : q < totalTokens s) :
    ((getSlidingWindowMask3D s ws causal).getD q []).length = totalTokens s := by
  rw [getSlidingWindowMask3D_getD, if_pos hq, markRow_length, List.length_replicate]

theorem mask_entry_true_iff (s : VolumeShape) (ws : Position3D) (causal : Causal3D)
    (q k : Nat) :
    ((getSlidingWindowMask3D s ws causal).getD q []).getD k false = true ↔
      q < totalTokens s ∧ k < totalTokens s ∧
        ∃ kv ∈ getWindows3D (position1DTo3D (q : Int) s) s ws causal,
          (position3DTo1D kv s).toNat = k := by
  rw [getSlidingWindowMask3D_getD]
  split
  · next h =>
      rw [markRow_getD]
      simp [h, List.length_replicate, getD_replicate_false]
  · next h =>
      simp [h, List.getD_nil]

/-! ### Claim theorems -/

/-- C1: for every valid shape, non-negative per-axis radius and causal flags,
`mask[q][k] = true` iff `q` and `k` are in `[0, T)` and the coordinate of `k`
is an element of the window enumerated around the coordinate of `q`; no entry
outside those pairs is ever `true`. -/
theorem mask_true_iff_window_mem (s : VolumeShape) (ws : Position3D) (causal : Causal3D)
    (hs : s.Valid) (hws : ws.Nonneg) (q k : Nat) :
    ((getSlidingWindowMask3D s ws causal).getD q []).getD k false = true ↔
      q < totalTokens s ∧ k < totalTokens s ∧
        position1DTo3D (k : Int) s ∈
          getWindows3D (position1DTo3D (q : Int) s) s ws causal := by
  have hT : (totalTokens s : Int) = s.frames * s.height * s.width :=
    Int.toNat_of_nonneg (by obtain ⟨h1, h2, h3⟩ := hs; positivity)
  rw [mask_entry_true_iff]
  constructor
  · rintro ⟨hq, hk, kv, hkv, hval⟩
    refine ⟨hq, hk, ?_⟩
    have hqvalid : (position1DTo3D (q : Int) s).ValidFor s :=
      position1DTo3D_valid hs (by positivity) (by omega)
    have hkvvalid : kv.ValidFor s := getWindows3D_valid ws causal hqvalid kv hkv
    have h0 : 0 ≤ position3DTo1D kv s := position3DTo1D_nonneg hs hkvvalid
    have hcast : (k : Int) = position3DTo1D kv s := by omega
    rw [hcast, position1DTo3D_position3DTo1D hs hkvvalid]
    exact hkv
  · rintro ⟨hq, hk, hmem⟩
    refine ⟨hq, hk, position1DTo3D (k : Int) s, hmem, ?_⟩
    rw [position3DTo1D_position1DTo3D hs (by positivity)]
    omega

/-- C1 witness: the characterization instantiated at shape `(1,1,3)`,
radius `(0,0,1)`, no causal axes, `q = 0`, `k = 1`. -/
theorem mask_true_iff_window_mem_witness :
    ((getSlidingWindowMask3D ⟨1, 1, 3⟩ ⟨0, 0, 1⟩ ⟨false, false, false⟩).getD 0
        []).getD 1 false = true ↔
      0 < totalTokens ⟨1, 1, 3⟩ ∧ 1 < totalTokens ⟨1, 1, 3⟩ ∧
        position1DTo3D ((1 : Nat) : Int) ⟨1, 1, 3⟩ ∈
          getWindows3D (position1DTo3D ((0 : Nat) : Int) ⟨1, 1, 3⟩) ⟨1, 1, 3⟩
            ⟨0, 0, 1⟩ ⟨false, false, false⟩ :=
  mask_true_iff_window_mem ⟨1, 1, 3⟩ ⟨0, 0, 1⟩ ⟨false, false, false⟩ (by decide)
    (by decide) 0 1

/-- C2: for a valid coordinate, valid shape, non-negative radius and any causal
flags, `getWindows3D` returns exactly the Cartesian product of the three
per-axis ranges with lower bound `max(c.axis - radius.axis, 0)` and exclusive
upper bound `c.axis + 1` on a causal axis, else
`min(c.axis + 1 + radius.axis, shape.axis)`, enumerated frame-outermost,
height, then width innermost, each element exactly once. -/
theorem windows_eq_cartesian_product (c : Position3D) (s : VolumeShape)
    (ws : Position3D) (causal : Causal3D) (hs : s.Valid) (hc : c.ValidFor s)
    (hws : ws.Nonneg) :
    getWindows3D c s ws causal =
      (intRange (max (c.frame - ws.frame) 0)
          (if causal.frame then c.frame + 1
            else min (c.frame + 1 + ws.frame) s.frames)).flatMap (fun f =>
        (intRange (max (c.height - ws.height) 0)
            (if causal.height then c.height + 1
              else min (c.height + 1 + ws.height) s.height)).flatMap (fun h =>
          (intRange (max (c.width - ws.width) 0)
              (if causal.width then c.width + 1
                else min (c.width + 1 + ws.width) s.width)).map (fun w =>
            ({ frame := f, height := h, width := w } : Position3D)))) ∧
      (getWindows3D c s ws causal).Nodup ∧
      ∀ x : Position3D, x ∈ getWindows3D c s ws causal ↔
        (max (c.frame - ws.frame) 0 ≤ x.frame ∧
          x.frame < (if causal.frame then c.frame + 1
            else min (c.frame + 1 + ws.frame) s.frames)) ∧
        (max (c.height - ws.height) 0 ≤ x.height ∧
          x.height < (if causal.height then c.height + 1
            else min (c.height + 1 + ws.height) s.height)) ∧
        (max (c.width - ws.width) 0 ≤ x.width ∧
          x.width < (if causal.width then c.width + 1
            else min (c.width + 1 + ws.width) s.width)) :=
  ⟨rfl, getWindows3D_nodup c s ws causal, fun _ => mem_getWindows3D⟩

/-- C2 witness: the Cartesian-product description instantiated at the corner
coordinate of a `(1,1,2)` shape with radius `(0,0,1)` and no causal axes. -/
theorem windows_eq_cartesian_product_witness :
    getWindows3D ⟨0, 0, 0⟩ ⟨1, 1, 2⟩ ⟨0, 0, 1⟩ ⟨false, false, false⟩ =
      (intRange (max ((0 : Int) - 0) 0)
          (if (false : Bool) then (0 : Int) + 1 else min ((0 : Int) + 1 + 0) 1)).flatMap
        (fun f =>
        (intRange (max ((0 : Int) - 0) 0)
            (if (false : Bool) then (0 : Int) + 1
              else min ((0 : Int) + 1 + 0) 1)).flatMap (fun h =>
          (intRange (max ((0 : Int) - 1) 0)
              (if (false : Bool) then (0 : Int) + 1
                else min ((0 : Int) + 1 + 1) 2)).map (fun w =>
            ({ frame := f, height := h, width := w } : Position3D)))) ∧
      (getWindows3D ⟨0, 0, 0⟩ ⟨1, 1, 2⟩ ⟨0, 0, 1⟩ ⟨false, false, false⟩).Nodup ∧
      ∀ x : Position3D,
        x ∈ getWindows3D ⟨0, 0, 0⟩ ⟨1, 1, 2⟩ ⟨0, 0, 1⟩ ⟨false, false, false⟩ ↔
        (max ((0 : Int) - 0) 0 ≤ x.frame ∧
          x.frame < (if (false : Bool) then (0 : Int) + 1
            else min ((0 : Int) + 1 + 0) 1)) ∧
        (max ((0 : Int) - 0) 0 ≤ x.height ∧
          x.height < (if (false : Bool) then (0 : Int) + 1
            else min ((0 : Int) + 1 + 0) 1)) ∧
        (max ((0 : Int) - 1) 0 ≤ x.width ∧
          x.width < (if (false : Bool) then (0 : Int) + 1
            else min ((0 : Int) + 1 + 1) 2)) :=
  windows_eq_cartesian_product ⟨0, 0, 0⟩ ⟨1, 1, 2⟩ ⟨0, 0, 1⟩ ⟨false, false, false⟩
    (by decide) (by decide) (by decide)

/-- C3: `position1DTo3D` and `position3DTo1D` are mutual inverses over
`[0, T)` and the valid coordinates of a valid shape. -/
theorem coordinate_round_trip (s : VolumeShape) (hs : s.Valid) :
    (∀ i : Int, 0 ≤ i → i < s.frames * s.height * s.width →
      position3DTo1D (position1DTo3D i s) s = i) ∧
    ∀ c : Position3D, c.ValidFor s → position1DTo3D (position3DTo1D c s) s = c :=
  ⟨fun _ hi _ => position3DTo1D_position1DTo3D hs hi,
   fun _ hc => position1DTo3D_position3DTo1D hs hc⟩

/-- C3 witness: both round trips at shape `(2,3,4)`, index `17` and
coordinate `(1,2,3)`. -/
theorem coordinate_round_trip_witness :
    ((0 : Int) ≤ 17 ∧ (17 : Int) < 2 * 3 * 4 ∧
      position3DTo1D (position1DTo3D 17 ⟨2, 3, 4⟩) ⟨2, 3, 4⟩ = 17) ∧
    (Position3D.ValidFor ⟨1, 2, 3⟩ ⟨2, 3, 4⟩ ∧
      position1DTo3D (position3DTo1D ⟨1, 2, 3⟩ ⟨2, 3, 4⟩) ⟨2, 3, 4⟩ = ⟨1, 2, 3⟩) :=
  ⟨⟨by decide, by decide,
    (coordinate_round_trip ⟨2, 3, 4⟩ (by decide)).1 17 (by decide) (by decide)⟩,
   ⟨by decide,
    (coordinate_round_trip ⟨2, 3, 4⟩ (by decide)).2 ⟨1, 2, 3⟩ (by decide)⟩⟩

/-- C9: the one-way round trip `position3DTo1D ∘ position1DTo3D = id` holds for
every non-negative index, including indices at or above `T`, because the frame
component is not reduced modulo `frames`. -/
theorem round_trip_all_nonneg (s : VolumeShape) (hs : s.Valid) (i : Int)
    (hi : 0 ≤ i) : position3DTo1D (position1DTo3D i s) s = i :=
  position3DTo1D_position1DTo3D hs hi

/-- C9 witness: the round trip at shape `(2,2,2)` (so `T = 8`) and the
out-of-range index `25`. -/
theorem round_trip_all_nonneg_witness :
    position3DTo1D (position1DTo3D 25 ⟨2, 2, 2⟩) ⟨2, 2, 2⟩ = 25 :=
  round_trip_all_nonneg ⟨2, 2, 2⟩ (by decide) 25 (by decide)

/-- C7: for a valid shape and an index in `[0, T)`, `position1DTo3D` computes
`width = i mod W`, `height = (i div W) mod H`, `frame = i div (W·H)` (with
floor division), and `position3DTo1D` computes
`frame·(H·W) + height·W + width` — row-major with width fastest. -/
theorem coordinate_mapping_formulas (s : VolumeShape) (hs : s.Valid) (i : Int)
    (hi : 0 ≤ i) (hiT : i < s.frames * s.height * s.width) :
    (position1DTo3D i s).width = i % s.width ∧
    (position1DTo3D i s).height = (i / s.width) % s.height ∧
    (position1DTo3D i s).frame = i / (s.width * s.height) ∧
    ∀ c : Position3D, position3DTo1D c s =
      c.frame * (s.height * s.width) + c.height * s.width + c.width :=
  ⟨position1DTo3D_width hs hi, position1DTo3D_height hs hi,
   position1DTo3D_frame hs hi, fun _ => rfl⟩

/-- C7 witness: the component formulas at shape `(2,3,4)` and index `17`. -/
theorem coordinate_mapping_formulas_witness :
    (position1DTo3D 17 ⟨2, 3, 4⟩).width = (17 : Int) % 4 ∧
    (position1DTo3D 17 ⟨2, 3, 4⟩).height = ((17 : Int) / 4) % 3 ∧
    (position1DTo3D 17 ⟨2, 3, 4⟩).frame = (17 : Int) / (4 * 3) ∧
    ∀ c : Position3D, position3DTo1D c ⟨2, 3, 4⟩ =
      c.frame * (3 * 4) + c.height * 4 + c.width :=
  coordinate_mapping_formulas ⟨2, 3, 4⟩ (by decide) 17 (by decide) (by decide)

/-- C4 counterexample: at shape `(1,1,5)`, radius `(0,0,2)`, causal width, row 4
of the mask is not `[T,T,T,T,T]` as claimed — the causal window also keeps the
lower bound `max(4 - 2, 0) = 2`, so columns 0 and 1 are `false`. -/
theorem causal_scenario_row4_counterexample :
    ¬ ((getSlidingWindowMask3D ⟨1, 1, 5⟩ ⟨0, 0, 2⟩
        ⟨false, false, true⟩).getD 4 [] = [true, true, true, true, true]) := by
  decide

/-- C4 (amended): at shape `(1,1,5)`, radius `(0,0,2)`, causal width, row 0 is
`[T,F,F,F,F]`, row 4 is `[F,F,T,T,T]` and row 2 is `[T,T,T,F,F]`. -/
theorem causal_scenario_rows :
    (getSlidingWindowMask3D ⟨1, 1, 5⟩ ⟨0, 0, 2⟩ ⟨false, false, true⟩).getD 0 [] =
      [true, false, false, false, false] ∧
    (getSlidingWindowMask3D ⟨1, 1, 5⟩ ⟨0, 0, 2⟩ ⟨false, false, true⟩).getD 4 [] =
      [false, false, true, true, true] ∧
    (getSlidingWindowMask3D ⟨1, 1, 5⟩ ⟨0, 0, 2⟩ ⟨false, false, true⟩).getD 2 [] =
      [true, true, true, false, false] := by
  decide

/-- C5: for a valid coordinate of a valid shape and any non-negative radius
(clamping included), every enumerated window coordinate is valid for the shape,
the enumeration has no duplicates, and every flat index written into the mask
lies in `[0, T)`. -/
theorem windows_safety (c : Position3D) (s : VolumeShape) (ws : Position3D)
    (causal : Causal3D) (hs : s.Valid) (hc : c.ValidFor s) (hws : ws.Nonneg) :
    (∀ x ∈ getWindows3D c s ws causal, x.ValidFor s) ∧
    (getWindows3D c s ws causal).Nodup ∧
    ∀ x ∈ getWindows3D c s ws causal,
      0 ≤ position3DTo1D x s ∧ position3DTo1D x s < (totalTokens s : Int) := by
  have hT : (totalTokens s : Int) = s.frames * s.height * s.width :=
    Int.toNat_of_nonneg (by obtain ⟨h1, h2, h3⟩ := hs; positivity)
  refine ⟨getWindows3D_valid ws causal hc, getWindows3D_nodup c s ws causal, ?_⟩
  intro x hx
  have hxvalid : x.ValidFor s := getWindows3D_valid ws causal hc x hx
  exact ⟨position3DTo1D_nonneg hs hxvalid, by rw [hT]; exact position3DTo1D_lt hs hxvalid⟩

/-- C5 witness: safety instantiated at the center of a `(1,3,3)` shape with an
oversized radius `(0,5,5)` and no causal axes. -/
theorem windows_safety_witness :
    (∀ x ∈ getWindows3D ⟨0, 1, 1⟩ ⟨1, 3, 3⟩ ⟨0, 5, 5⟩ ⟨false, false, false⟩,
      x.ValidFor ⟨1, 3, 3⟩) ∧
    (getWindows3D ⟨0, 1, 1⟩ ⟨1, 3, 3⟩ ⟨0, 5, 5⟩ ⟨false, false, false⟩).Nodup ∧
    ∀ x ∈ getWindows3D ⟨0, 1, 1⟩ ⟨1, 3, 3⟩ ⟨0, 5, 5⟩ ⟨false, false, false⟩,
      0 ≤ position3DTo1D x ⟨1, 3, 3⟩ ∧
        position3DTo1D x ⟨1, 3, 3⟩ < (totalTokens ⟨1, 3, 3⟩ : Int) :=
  windows_safety ⟨0, 1, 1⟩ ⟨1, 3, 3⟩ ⟨0, 5, 5⟩ ⟨false, false, false⟩ (by decide)
    (by decide) (by decide)

/-- C6: for a valid shape and non-negative radius, every valid coordinate is a
member of its own window (so the enumeration is never empty), and consequently
every diagonal mask entry `mask[i][i]` is `true`. -/
theorem window_self_inclusion (s : VolumeShape) (ws : Position3D)
    (causal : Causal3D) (hs : s.Valid) (hws : ws.Nonneg) :
    (∀ c : Position3D, c.ValidFor s →
      c ∈ getWindows3D c s ws causal ∧ getWindows3D c s ws causal ≠ []) ∧
    ∀ i : Nat, i < totalTokens s →
      ((getSlidingWindowMask3D s ws causal).getD i []).getD i false = true := by
  constructor
  · intro c hc
    have hmem := getWindows3D_self_mem causal hc hws
    exact ⟨hmem, List.ne_nil_of_mem hmem⟩
  · intro i hi
    have hvalid : (position1DTo3D (i : Int) s).ValidFor s :=
      position1DTo3D_valid hs (by positivity) (by unfold totalTokens at hi; omega)
    rw [mask_entry_true_iff]
    refine ⟨hi, hi, position1DTo3D (i : Int) s,
      getWindows3D_self_mem causal hvalid hws, ?_⟩
    rw [position3DTo1D_position1DTo3D hs (by positivity)]
    omega

/-- C6 witness: self-inclusion and the diagonal at shape `(2,2,2)`, radius
`(1,0,1)`, causal frame axis, coordinate `(1,1,0)` and diagonal index 5. -/
theorem window_self_inclusion_witness :
    (Position3D.ValidFor ⟨1, 1, 0⟩ ⟨2, 2, 2⟩ ∧
      (⟨1, 1, 0⟩ : Position3D) ∈ getWindows3D ⟨1, 1, 0⟩ ⟨2, 2, 2⟩ ⟨1, 0, 1⟩
          ⟨true, false, false⟩ ∧
        getWindows3D ⟨1, 1, 0⟩ ⟨2, 2, 2⟩ ⟨1, 0, 1⟩ ⟨true, false, false⟩ ≠ []) ∧
    (5 < totalTokens ⟨2, 2, 2⟩ ∧
      ((getSlidingWindowMask3D ⟨2, 2, 2⟩ ⟨1, 0, 1⟩
          ⟨true, false, false⟩).getD 5 []).getD 5 false = true) :=
  ⟨⟨by decide,
    (window_self_inclusion ⟨2, 2, 2⟩ ⟨1, 0, 1⟩ ⟨true, false, false⟩ (by decide)
      (by decide)).1 ⟨1, 1, 0⟩ (by decide)⟩,
   ⟨by decide,
    (window_self_inclusion ⟨2, 2, 2⟩ ⟨1, 0, 1⟩ ⟨true, false, false⟩ (by decide)
      (by decide)).2 5 (by decide)⟩⟩

/-- C8: the single-boolean-causal variant refines the per-axis variant — with
the flag copied to all three axes the two `getWindows3D` implementations return
the same list and the two `getSlidingWindowMask3D` implementations the same
mask, for all inputs. -/
theorem single_flag_refines_per_axis (p s ws : Position3D) (v : VolumeShape)
    (b : Bool) :
    Single.getWindows3D p v ws b = getWindows3D p v ws ⟨b, b, b⟩ ∧
    Single.getSlidingWindowMask3D v ws b = getSlidingWindowMask3D v ws ⟨b, b, b⟩ := by
  cases b
  · exact ⟨rfl, rfl⟩
  · exact ⟨rfl, rfl⟩

/-- C10: a negative radius component is not rejected: the window enumeration is
empty for every query, and the resulting mask is a `T × T` matrix that is
entirely `false`, diagonal included. -/
theorem negative_radius_all_false (s : VolumeShape) (ws : Position3D)
    (causal : Causal3D) (hs : s.Valid)
    (hneg : ws.frame < 0 ∨ ws.height < 0 ∨ ws.width < 0) :
    (∀ c : Position3D, c.ValidFor s → getWindows3D c s ws causal = []) ∧
    (getSlidingWindowMask3D s ws causal).length = totalTokens s ∧
    (∀ q : Nat, q < totalTokens s →
      ((getSlidingWindowMask3D s ws causal).getD q []).length = totalTokens s) ∧
    ∀ q k : Nat, ((getSlidingWindowMask3D s ws causal).getD q []).getD k false = false := by
  refine ⟨fun c _ => getWindows3D_eq_nil_of_neg causal hneg,
    getSlidingWindowMask3D_length s ws causal,
    fun q hq => getSlidingWindowMask3D_row_length s ws causal q hq, ?_⟩
  intro q k
  cases hb : ((getSlidingWindowMask3D s ws causal).getD q []).getD k false
  · rfl
  · exfalso
    rw [mask_entry_true_iff] at hb
    obtain ⟨hq, hk, kv, hkv, _⟩ := hb
    rw [getWindows3D_eq_nil_of_neg causal hneg] at hkv
    exact List.not_mem_nil kv hkv

/-- C10 witness: instantiated at shape `(1,2,2)` with radius `(0,-1,3)` and a
causal height axis, checked at the corner coordinate and entry `(0,0)`. -/
theorem negative_radius_all_false_witness :
    (Position3D.ValidFor ⟨0, 0, 0⟩ ⟨1, 2, 2⟩ ∧
      getWindows3D ⟨0, 0, 0⟩ ⟨1, 2, 2⟩ ⟨0, -1, 3⟩ ⟨false, true, false⟩ = []) ∧
    (getSlidingWindowMask3D ⟨1, 2, 2⟩ ⟨0, -1, 3⟩
        ⟨false, true, false⟩).length = totalTokens ⟨1, 2, 2⟩ ∧
    ((getSlidingWindowMask3D ⟨1, 2, 2⟩ ⟨0, -1, 3⟩
        ⟨false, true, false⟩).getD 0 []).getD 0 false = false :=
  ⟨⟨by decide,
    (negative_radius_all_false ⟨1, 2, 2⟩ ⟨0, -1, 3⟩ ⟨false, true, false⟩
      (by decide) (by decide)).1 ⟨0, 0, 0⟩ (by decide)⟩,
   (negative_radius_all_false ⟨1, 2, 2⟩ ⟨0, -1, 3⟩ ⟨false, true, false⟩
      (by decide) (by decide)).2.1,
   (negative_radius_all_false ⟨1, 2, 2⟩ ⟨0, -1, 3⟩ ⟨false, true, false⟩
      (by decide) (by decide)).2.2.2 0 0⟩
